import Mathlib

/-!
Shallow embedding of the routing-and-dispatch engine of the repository:
`src/dynamic_mcp/core/router.py` (ContextAwareRouter),
`src/dynamic_mcp/core/orchestrator.py` (DynamicMCPOrchestrator) and
`src/dynamic_mcp/utils/mcp_client.py` (MCPClient), together with proofs
about the routing, scoring, caching, retry and aggregation behaviour.

Modelling conventions:
- Python floats are modelled as exact rationals (ℚ); the score weights
  0.1, 0.3, 0.6, 0.2 become 1/10, 3/10, 6/10, 1/5.
- Wall-clock instants and durations are modelled as natural numbers
  (whole time units); no verified property compares fractional times.
- Python dicts that are only read through key lookup are modelled as
  association lists read through List.lookup (first binding wins, which
  matches dict update modelled as consing the new binding in front).
- Python regular expressions are modelled by a small regex language with
  Brzozowski-derivative matching; re.match (anchored at the start only)
  and re.fullmatch are two different entry points of the same matcher.
  The textual pattern-compilation step of the re module is abstracted:
  rule conditions carry the compiled pattern.
- The md5 hex digest used by ContextAwareRouter._generate_cache_key is
  injective on the inputs appearing here only through the string it
  hashes, so the key is modelled as the hashed string itself.
-/

/-- Trigger kinds, from schemas.py class TriggerType(str, Enum). -/
inductive TriggerType where
  | user_prompt
  | issue
  | pull_request
  | push
  | commit
  | meta_prompt
  | query
  | webhook
  | scheduled
deriving DecidableEq, Repr

/-- Python str() of a TriggerType member, as produced by an f-string:
for a (str, Enum) subclass this is the qualified member name. -/
def trigger_type_str : TriggerType → String
  | .user_prompt => "TriggerType.USER_PROMPT"
  | .issue => "TriggerType.ISSUE"
  | .pull_request => "TriggerType.PULL_REQUEST"
  | .push => "TriggerType.PUSH"
  | .commit => "TriggerType.COMMIT"
  | .meta_prompt => "TriggerType.META_PROMPT"
  | .query => "TriggerType.QUERY"
  | .webhook => "TriggerType.WEBHOOK"
  | .scheduled => "TriggerType.SCHEDULED"

/-- Server capabilities, from schemas.py class ServerCapability(str, Enum). -/
inductive ServerCapability where
  | code_analysis
  | documentation
  | testing
  | deployment
  | monitoring
  | security
  | data_processing
  | ai_inference
  | workflow_automation
  | integration
deriving DecidableEq, Repr

instance : BEq ServerCapability := ⟨fun a b => decide (a = b)⟩

instance : LawfulBEq ServerCapability where
  eq_of_beq h := of_decide_eq_true h
  rfl := by intro a; exact decide_eq_true rfl

/-- The .value string of a ServerCapability member. -/
def capability_value : ServerCapability → String
  | .code_analysis => "code_analysis"
  | .documentation => "documentation"
  | .testing => "testing"
  | .deployment => "deployment"
  | .monitoring => "monitoring"
  | .security => "security"
  | .data_processing => "data_processing"
  | .ai_inference => "ai_inference"
  | .workflow_automation => "workflow_automation"
  | .integration => "integration"

/-- Does the second character list begin with the first one? -/
def begins_with : List Char → List Char → Bool
  | [], _ => true
  | _ :: _, [] => false
  | a :: as, b :: bs => a == b && begins_with as bs

/-- Does the second character list contain the first as a contiguous
subsequence?  This is the semantics of the Python substring test
needle in hay. -/
def has_sub (needle : List Char) : List Char → Bool
  | [] => begins_with needle []
  | c :: cs => begins_with needle (c :: cs) || has_sub needle cs

/-- Python needle in hay on strings. -/
def contains_sub (hay needle : String) : Bool :=
  has_sub needle.toList hay.toList

/-- Compiled regular-expression patterns, the fragment needed to model
the patterns used by routing-rule conditions. -/
inductive Regex where
  | emp
  | eps
  | ch (c : Char)
  | cat (a b : Regex)
  | alt (a b : Regex)
  | star (a : Regex)
deriving DecidableEq, Repr

/-- Does the pattern accept the empty string? -/
def nullable : Regex → Bool
  | .emp => false
  | .eps => true
  | .ch _ => false
  | .cat a b => nullable a && nullable b
  | .alt a b => nullable a || nullable b
  | .star _ => true

/-- Brzozowski derivative of a pattern by one character. -/
def rderiv : Regex → Char → Regex
  | .emp, _ => .emp
  | .eps, _ => .emp
  | .ch c, d => if c = d then .eps else .emp
  | .cat a b, d =>
      if nullable a then .alt (.cat (rderiv a d) b) (rderiv b d)
      else .cat (rderiv a d) b
  | .alt a b, d => .alt (rderiv a d) (rderiv b d)
  | .star a, d => .cat (rderiv a d) (.star a)

/-- Whole-string acceptance: the semantics of Python re.fullmatch. -/
def rmatch (r : Regex) (s : List Char) : Bool :=
  nullable (s.foldl rderiv r)

/-- Anchored-at-start acceptance: the semantics of Python re.match,
which succeeds when the pattern matches at the beginning of the string,
with arbitrary trailing characters allowed. -/
def py_match (r : Regex) : List Char → Bool
  | [] => nullable r
  | c :: cs => nullable r || py_match (rderiv r c) cs

/-- Literal-string pattern. -/
def rex_lit (s : String) : Regex :=
  s.toList.foldr (fun c r => .cat (.ch c) r) .eps

/-- Condition set of a routing rule, from the open-ended conditions
dict in schemas.py RoutingRule.  Each key is optional; the code path in
router.py _check_rule_conditions normalises a single keyword string to
a one-element list, which is folded into the list representation here. -/
structure RuleConditions where
  repository : Option Regex
  keywords : Option (List String)
  user : Option Regex
  branch : Option Regex
deriving DecidableEq, Repr

/-- Trigger context, from schemas.py TriggerContext. -/
structure TriggerContext where
  trigger_type : TriggerType
  timestamp : Nat
  source : String
  metadata : List (String × String)
  content : Option String
  user_id : Option String
  repository : Option String
  branch : Option String
  commit_sha : Option String
  issue_number : Option Nat
  pr_number : Option Nat
deriving DecidableEq, Repr

/-- Server configuration, from schemas.py MCPServerConfig (auth_config
and environment carry no routing-relevant structure and are modelled as
opaque key-value lists). -/
structure MCPServerConfig where
  name : String
  endpoint : String
  capabilities : List ServerCapability
  priority : Nat
  enabled : Bool
  timeout : Nat
  retry_count : Nat
  health_check_interval : Nat
  tags : List String
  auth_config : Option (List (String × String))
deriving DecidableEq, Repr

/-- Routing rule, from schemas.py RoutingRule. -/
structure RoutingRule where
  name : String
  trigger_types : List TriggerType
  conditions : RuleConditions
  target_servers : List String
  priority : Nat
  enabled : Bool
deriving DecidableEq, Repr

/-- Routing result, from schemas.py RoutingResult.  The processing_time
field of the source (a wall-clock duration measured inside the call) is
not modelled; the creation timestamp is. -/
structure RoutingResult where
  selected_servers : List String
  confidence_scores : List (String × ℚ)
  routing_reason : String
  fallback_used : Bool
  timestamp : Nat
deriving DecidableEq, Repr

/-- System configuration, from schemas.py SystemConfig restricted to
the fields the routing-and-dispatch core reads. -/
structure SystemConfig where
  servers : List MCPServerConfig
  routing_rules : List RoutingRule
  request_timeout : Nat
deriving DecidableEq, Repr

/-- Per-server response, from schemas.py MCPResponse.  The payload dict
is modelled as an opaque string; processing_time is in whole time
units. -/
structure MCPResponse where
  server_name : String
  success : Bool
  data : Option String
  error : Option String
  processing_time : Nat
deriving DecidableEq, Repr

/-- Final orchestration result, from schemas.py OrchestrationResult.
The total_processing_time wall-clock field is not modelled. -/
structure OrchestrationResult where
  trigger_context : TriggerContext
  routing_result : RoutingResult
  server_responses : List MCPResponse
  final_response : Option String
  success : Bool
deriving DecidableEq, Repr

/-- ContextAwareRouter._check_rule_conditions (router.py lines 180-212).
Python truthiness of the optional context fields is significant: a None
or empty-string field counts as absent.  Note the asymmetry of the
keyword branch: it is guarded by and context.content, so with absent or
empty content the keyword condition is skipped rather than failed. -/
def check_rule_conditions (rule : RoutingRule) (context : TriggerContext) : Bool :=
  (match rule.conditions.repository with
    | some repo_pattern =>
        match context.repository with
        | some repo => (repo != "") && py_match repo_pattern repo.toList
        | none => false
    | none => true) &&
  (match rule.conditions.keywords, context.content with
    | some keywords, some content =>
        (content == "") ||
          keywords.any (fun keyword => contains_sub content.toLower keyword.toLower)
    | _, _ => true) &&
  (match rule.conditions.user with
    | some user_pattern =>
        match context.user_id with
        | some user => (user != "") && py_match user_pattern user.toList
        | none => false
    | none => true) &&
  (match rule.conditions.branch with
    | some branch_pattern =>
        match context.branch with
        | some branch => (branch != "") && py_match branch_pattern branch.toList
        | none => false
    | none => true)

/-- The per-rule filter applied by ContextAwareRouter._apply_routing_rules
(router.py lines 162-174): enabled, server targeted, trigger kind listed,
and all conditions met. -/
def rule_matches (server_name : String) (rule : RoutingRule) (context : TriggerContext) : Bool :=
  rule.enabled &&
  decide (server_name ∈ rule.target_servers) &&
  decide (context.trigger_type ∈ rule.trigger_types) &&
  check_rule_conditions rule context

/-- ContextAwareRouter._apply_routing_rules (router.py lines 152-178):
map each available server to the list of rules that match the context. -/
def apply_routing_rules (routing_rules : List RoutingRule) (context : TriggerContext)
    (servers : List MCPServerConfig) : List (String × List RoutingRule) :=
  servers.map fun server =>
    (server.name, routing_rules.filter fun rule => rule_matches server.name rule context)

/-- The fixed keyword table of
ContextAwareRouter._analyze_content_for_capabilities
(router.py lines 225-266), in source order. -/
def capability_keywords : List (ServerCapability × List String) :=
  [(.code_analysis,
      ["code", "analysis", "lint", "review", "syntax", "bug", "refactor",
       "quality", "complexity", "smell", "pattern", "ast", "parse"]),
   (.documentation,
      ["docs", "documentation", "readme", "guide", "tutorial", "manual",
       "comment", "docstring", "explain", "describe", "wiki"]),
   (.testing,
      ["test", "testing", "unittest", "pytest", "coverage", "mock",
       "assertion", "verify", "validate", "check", "spec"]),
   (.deployment,
      ["deploy", "deployment", "release", "build", "ci", "cd", "pipeline",
       "docker", "kubernetes", "helm", "terraform"]),
   (.monitoring,
      ["monitor", "metrics", "logs", "alert", "performance", "health",
       "trace", "observability", "prometheus", "grafana"]),
   (.security,
      ["security", "vulnerability", "auth", "permission", "encrypt",
       "secure", "threat", "scan", "audit", "compliance"]),
   (.data_processing,
      ["data", "process", "transform", "etl", "pipeline", "batch",
       "stream", "analytics", "database", "query"]),
   (.ai_inference,
      ["ai", "ml", "model", "inference", "predict", "classify",
       "neural", "deep", "learning", "tensorflow", "pytorch"]),
   (.workflow_automation,
      ["workflow", "automation", "trigger", "schedule", "job",
       "task", "orchestration", "pipeline", "action"]),
   (.integration,
      ["integration", "api", "webhook", "connect", "sync", "interface",
       "bridge", "adapter", "plugin", "extension"])]

/-- ContextAwareRouter._analyze_content_for_capabilities (router.py
lines 214-278): count keyword hits in the lower-cased content, normalise
by the keyword-list length and clamp at 1; zero-hit categories are
omitted.  Python truthiness: absent and empty content both short-circuit
to the empty map. -/
def analyze_content_for_capabilities (context : TriggerContext) :
    List (ServerCapability × ℚ) :=
  match context.content with
  | none => []
  | some content =>
    if content = "" then []
    else
      let lowered := content.toLower
      capability_keywords.filterMap fun entry =>
        let score : ℚ :=
          ((entry.2.filter (fun keyword => contains_sub lowered keyword)).length : ℚ)
        if 0 < score then some (entry.1, min (score / (entry.2.length : ℚ)) 1)
        else none

/-- The per-server body of ContextAwareRouter._calculate_server_scores
(router.py lines 290-314): base priority weight, matched-rule weights,
capability-content weights, then the trigger-affinity bonus as an
if/elif chain. -/
def calculate_server_score (server : MCPServerConfig) (rules : List RoutingRule)
    (content_scores : List (ServerCapability × ℚ)) (context : TriggerContext) : ℚ :=
  let score : ℚ := 0
  let score := score + (server.priority : ℚ) * (1 / 10)
  let score := rules.foldl (fun s rule => s + (rule.priority : ℚ) * (3 / 10)) score
  let score := server.capabilities.foldl
    (fun s capability =>
      match content_scores.lookup capability with
      | some v => s + v * (6 / 10)
      | none => s) score
  if context.trigger_type = .issue ∧ ServerCapability.code_analysis ∈ server.capabilities then
    score + 1 / 5
  else if context.trigger_type = .pull_request ∧
      ServerCapability.code_analysis ∈ server.capabilities then
    score + 1 / 5
  else if context.trigger_type = .push ∧
      ServerCapability.deployment ∈ server.capabilities then
    score + 1 / 5
  else
    score

/-- ContextAwareRouter._calculate_server_scores (router.py lines
280-316): one (name, score) entry per available server, in server
order. -/
def calculate_server_scores (servers : List MCPServerConfig)
    (rule_matches : List (String × List RoutingRule))
    (content_scores : List (ServerCapability × ℚ)) (context : TriggerContext) :
    List (String × ℚ) :=
  servers.map fun server =>
    (server.name,
     calculate_server_score server ((rule_matches.lookup server.name).getD [])
       content_scores context)

/-- The descending-score comparison used by the Python stable sorts
sorted(key score, reverse true). -/
def score_ge (a b : String × ℚ) : Prop := b.2 ≤ a.2

instance : DecidableRel score_ge := fun a b => inferInstanceAs (Decidable (b.2 ≤ a.2))

/-- ContextAwareRouter._select_top_servers (router.py lines 318-334):
stable sort by descending score, keep scores strictly above 1/10, return
at most the first three names.  Python sorted with reverse is a stable
sort, modelled by the stable insertion sort under the non-strict
descending comparison. -/
def select_top_servers (server_scores : List (String × ℚ)) : List String :=
  if server_scores.isEmpty then []
  else
    let sorted_servers := List.insertionSort score_ge server_scores
    let selected_servers :=
      (sorted_servers.filter fun p => decide ((1 : ℚ) / 10 < p.2)).map Prod.fst
    selected_servers.take 3

/-- The descending comparison on capability content scores, used by the
rationale builder. -/
def cap_score_ge (a b : ServerCapability × ℚ) : Prop := b.2 ≤ a.2

instance : DecidableRel cap_score_ge := fun a b => inferInstanceAs (Decidable (b.2 ≤ a.2))

/-- ContextAwareRouter._generate_routing_reason (router.py lines
336-361). -/
def generate_routing_reason (context : TriggerContext)
    (rule_matches : List (String × List RoutingRule))
    (content_scores : List (ServerCapability × ℚ)) : String :=
  let reasons := ["Trigger type: " ++ trigger_type_str context.trigger_type]
  let total_rules := (rule_matches.map (fun p => p.2.length)).sum
  let reasons :=
    if 0 < total_rules then
      reasons ++ ["Matched " ++ toString total_rules ++ " routing rules"]
    else reasons
  let reasons :=
    if content_scores.isEmpty then reasons
    else
      let top_capabilities := (List.insertionSort cap_score_ge content_scores).take 3
      reasons ++
        ["Content analysis suggests: " ++
          String.intercalate ", " (top_capabilities.map fun p => capability_value p.1)]
  String.intercalate "; " reasons

/-- ContextAwareRouter._generate_cache_key (router.py lines 363-370):
the key is determined by trigger kind, source, content and repository
only (md5 modelled as the hashed string, see the file header). -/
def generate_cache_key (context : TriggerContext) : String :=
  "route_" ++ trigger_type_str context.trigger_type ++ context.source ++
    (context.content.getD "") ++ (context.repository.getD "")

/-- The cache-freshness test of ContextAwareRouter.route_trigger
(router.py line 53): Python timedelta.seconds is the whole-day
remainder of the age, not the total age in seconds. -/
def fresh_in_cache (now cached_timestamp : Nat) : Bool :=
  (now - cached_timestamp) % 86400 < 300

/-- ContextAwareRouter._get_available_servers (router.py lines
113-127): enabled servers that pass the health check.  The health check
_check_server_health (lines 129-150) unconditionally reports healthy
(the probe is stubbed to True), so availability reduces to the enabled
flag. -/
def get_available_servers (config : SystemConfig) : List MCPServerConfig :=
  config.servers.filter fun server => server.enabled

/-- The compute-and-cache path of ContextAwareRouter.route_trigger
(router.py lines 57-101), taken on a cache miss or a stale entry. -/
def route_compute (config : SystemConfig) (cache : List (String × RoutingResult))
    (now : Nat) (context : TriggerContext) (cache_key : String) :
    RoutingResult × List (String × RoutingResult) :=
  let available_servers := get_available_servers config
  if available_servers.isEmpty then
    ({ selected_servers := []
       confidence_scores := []
       routing_reason := "No available servers"
       fallback_used := true
       timestamp := now }, cache)
  else
    let rule_matches := apply_routing_rules config.routing_rules context available_servers
    let content_scores := analyze_content_for_capabilities context
    let server_scores :=
      calculate_server_scores available_servers rule_matches content_scores context
    let selected_servers := select_top_servers server_scores
    let result : RoutingResult :=
      { selected_servers := selected_servers
        confidence_scores := server_scores
        routing_reason := generate_routing_reason context rule_matches content_scores
        fallback_used := selected_servers.isEmpty
        timestamp := now }
    (result, (cache_key, result) :: cache)

/-- ContextAwareRouter.route_trigger (router.py lines 36-111): return a
fresh-enough cached result unchanged, otherwise compute and cache.  The
routing cache is passed and returned explicitly; dict update is
modelled as consing the new binding, read through List.lookup. -/
def route_trigger (config : SystemConfig) (cache : List (String × RoutingResult))
    (now : Nat) (context : TriggerContext) :
    RoutingResult × List (String × RoutingResult) :=
  let cache_key := generate_cache_key context
  match cache.lookup cache_key with
  | some cached_result =>
    if fresh_in_cache now cached_result.timestamp then (cached_result, cache)
    else route_compute config cache now context cache_key
  | none => route_compute config cache now context cache_key

/-- Result of one HTTP attempt inside MCPClient.execute_request: a 200
response with a decoded payload, a non-200 response with its status and
body, or a transport-level failure (connection error or timeout). -/
inductive AttemptOutcome where
  | ok (data : String)
  | http (status : Nat) (body : String)
  | net (msg : String)
deriving DecidableEq, Repr

/-- Does the attempt raise inside the retry loop?  In the source every
non-200 response raises aiohttp.ClientError (mcp_client.py line 77) and
transport failures raise ClientError or TimeoutError, all caught by the
same handler (line 81); only a 200 response escapes the loop. -/
def attempt_fails : AttemptOutcome → Bool
  | .ok _ => false
  | .http _ _ => true
  | .net _ => true

/-- The error message the loop re-raises once retries are exhausted. -/
def fail_msg : AttemptOutcome → String
  | .ok _ => ""
  | .http status body => "HTTP " ++ toString status ++ ": " ++ body
  | .net msg => msg

/-- The retry loop of MCPClient.execute_request (mcp_client.py lines
64-93), with the environment giving the outcome of each attempt and the
backoff waits recorded: on any caught failure with retries remaining
the loop sleeps 2 ^ attempt time units and retries; with none remaining
it re-raises. -/
def execute_attempts (env : Nat → AttemptOutcome) :
    Nat → Nat → Except String String × List Nat
  | attempt, 0 =>
    match env attempt with
    | .ok data => (.ok data, [])
    | o => (.error (fail_msg o), [])
  | attempt, remaining + 1 =>
    match env attempt with
    | .ok data => (.ok data, [])
    | _ =>
      let rest := execute_attempts env (attempt + 1) remaining
      (rest.1, 2 ^ attempt :: rest.2)

/-- MCPClient.execute_request (mcp_client.py lines 39-97): range over
retry_count + 1 attempts starting at attempt 0.  Returns the final
result and the list of backoff waits performed, in order. -/
def execute_request (retry_count : Nat) (env : Nat → AttemptOutcome) :
    Except String String × List Nat :=
  execute_attempts env 0 retry_count

/-- Environment of one dispatch fan-out: for every server name, the
response its task would produce (the result of
DynamicMCPOrchestrator._execute_on_single_server, which catches every
exception and returns a failed MCPResponse, orchestrator.py lines
211-242) and the time its task needs.  The content-enrichment step
_enhance_context_with_rag only adds metadata consumed by the dispatched
request payload and is absorbed into the outcome function. -/
structure DispatchEnv where
  outcome : String → MCPResponse
  duration : String → Nat

/-- The synthetic outcome built by the global-timeout handler of
DynamicMCPOrchestrator._execute_on_servers (orchestrator.py lines
199-209). -/
def timeout_response (request_timeout : Nat) (server_name : String) : MCPResponse :=
  { server_name := server_name
    success := false
    data := none
    error := some "Request timeout"
    processing_time := request_timeout }

/-- DynamicMCPOrchestrator._execute_on_servers (orchestrator.py lines
161-209): one task per selected name that exists in the configuration,
gathered under the single global deadline config.request_timeout.  The
gather completes in time exactly when every started task does; then the
real responses are returned.  Otherwise asyncio.wait_for raises
TimeoutError, the gather is cancelled, and the handler fabricates one
timeout response per name in the original selection list, discarding
every result the cancelled gather had already produced. -/
def execute_on_servers (config : SystemConfig) (env : DispatchEnv)
    (server_names : List String) : List MCPResponse :=
  let started := server_names.filter fun n =>
    config.servers.any fun server => server.name == n
  if started.all (fun n => env.duration n ≤ config.request_timeout) then
    started.map env.outcome
  else
    server_names.map (timeout_response config.request_timeout)

/-- DynamicMCPOrchestrator._generate_contextual_response (orchestrator.py
lines 282-304): with no successful response the aggregate is absent,
otherwise it is produced by the downstream generation collaborator
(external, spec section 6), abstracted as a function argument. -/
def generate_contextual_response (generator : List MCPResponse → String)
    (server_responses : List MCPResponse) : Option String :=
  let successful_responses := server_responses.filter fun r => r.success
  if successful_responses.isEmpty then none
  else some (generator successful_responses)

/-- DynamicMCPOrchestrator.process_trigger (orchestrator.py lines
65-137): route, stop early with an unsuccessful result when nothing was
selected, otherwise dispatch and aggregate.  Overall success is
any(response.success). -/
def process_trigger (config : SystemConfig) (cache : List (String × RoutingResult))
    (now : Nat) (env : DispatchEnv) (generator : List MCPResponse → String)
    (context : TriggerContext) : OrchestrationResult :=
  let routing_result := (route_trigger config cache now context).1
  if routing_result.selected_servers.isEmpty then
    { trigger_context := context
      routing_result := routing_result
      server_responses := []
      final_response := none
      success := false }
  else
    let server_responses := execute_on_servers config env routing_result.selected_servers
    let final_response := generate_contextual_response generator server_responses
    { trigger_context := context
      routing_result := routing_result
      server_responses := server_responses
      final_response := final_response
      success := server_responses.any fun r => r.success }

/-- Satisfaction of the repository condition as the specification words
it, adjusted to the source semantics: the field must be present and
non-empty (Python truthiness) and the pattern must match at the start
of the repository string (re.match). -/
def repo_cond_ok (c : RuleConditions) (context : TriggerContext) : Prop :=
  ∀ pat, c.repository = some pat →
    ∃ repo, context.repository = some repo ∧ repo ≠ "" ∧
      py_match pat repo.toList = true

/-- Satisfaction of the keyword condition as the source implements it:
the substring requirement applies only when content is present and
non-empty; otherwise the condition is vacuously satisfied. -/
def keyword_cond_ok (c : RuleConditions) (context : TriggerContext) : Prop :=
  ∀ kws content, c.keywords = some kws → context.content = some content →
    content ≠ "" →
      ∃ kw, kw ∈ kws ∧ contains_sub content.toLower kw.toLower = true

/-- Satisfaction of the user condition: user id present, non-empty, and
matched at the start by the pattern. -/
def user_cond_ok (c : RuleConditions) (context : TriggerContext) : Prop :=
  ∀ pat, c.user = some pat →
    ∃ user, context.user_id = some user ∧ user ≠ "" ∧
      py_match pat user.toList = true

/-- Satisfaction of the branch condition: branch present, non-empty, and
matched at the start by the pattern. -/
def branch_cond_ok (c : RuleConditions) (context : TriggerContext) : Prop :=
  ∀ pat, c.branch = some pat →
    ∃ branch, context.branch = some branch ∧ branch ≠ "" ∧
      py_match pat branch.toList = true

/-- A routing rule whose only condition is a repository pattern. -/
def repo_rule (pat : Regex) : RoutingRule :=
  { name := "repo-rule"
    trigger_types := []
    conditions := { repository := some pat, keywords := none, user := none, branch := none }
    target_servers := []
    priority := 1
    enabled := true }

/-- Baseline concrete trigger context used by the concrete checks. -/
def ctx0 : TriggerContext :=
  { trigger_type := .issue
    timestamp := 0
    source := "github"
    metadata := []
    content := none
    user_id := none
    repository := none
    branch := none
    commit_sha := none
    issue_number := none
    pr_number := none }

/-- A context agreeing with ctx0 on trigger kind, source, content and
repository but differing in branch, user id and metadata. -/
def ctx0_branched : TriggerContext :=
  { ctx0 with branch := some "dev", user_id := some "alice", metadata := [("k", "v")] }

/-- A context whose repository is a strict extension of the literal
pattern below. -/
def ctx_repo : TriggerContext :=
  { ctx0 with repository := some "abcdef" }

/-- The literal pattern abc. -/
def pat_abc : Regex := rex_lit "abc"

/-- A rule carrying only a keyword condition. -/
def rule_kw : RoutingRule :=
  { name := "kw-rule"
    trigger_types := [.issue]
    conditions := { repository := none, keywords := some ["bug"], user := none, branch := none }
    target_servers := ["srv"]
    priority := 9
    enabled := true }

/-- An enabled concrete server. -/
def srv_alpha : MCPServerConfig :=
  { name := "alpha"
    endpoint := "http://alpha:8080"
    capabilities := [.code_analysis]
    priority := 8
    enabled := true
    timeout := 30
    retry_count := 3
    health_check_interval := 60
    tags := []
    auth_config := none }

/-- A second enabled concrete server. -/
def srv_beta : MCPServerConfig :=
  { srv_alpha with
      name := "beta"
      endpoint := "http://beta:8080"
      capabilities := [.deployment] }

/-- A disabled concrete server. -/
def srv_off : MCPServerConfig :=
  { srv_alpha with name := "off", enabled := false }

/-- A configuration with one enabled server. -/
def cfg_one : SystemConfig :=
  { servers := [srv_alpha], routing_rules := [], request_timeout := 60 }

/-- A configuration whose only server is disabled. -/
def cfg_disabled : SystemConfig :=
  { servers := [srv_off], routing_rules := [], request_timeout := 60 }

/-- A configuration with two enabled servers, used by the dispatch
checks. -/
def cfg_two : SystemConfig :=
  { servers := [srv_alpha, srv_beta], routing_rules := [], request_timeout := 60 }

/-- A stale routing result sitting in the cache with creation time 0. -/
def stale_result : RoutingResult :=
  { selected_servers := ["stale-server"]
    confidence_scores := [("stale-server", 1)]
    routing_reason := "cached"
    fallback_used := false
    timestamp := 0 }

/-- A dispatch environment in which every task would succeed, the beta
task needs 100 time units and every other task 1. -/
def env_two : DispatchEnv :=
  { outcome := fun n =>
      { server_name := n
        success := true
        data := some "payload"
        error := none
        processing_time := 1 }
    duration := fun n => if n = "beta" then 100 else 1 }

/-- A constant downstream generation collaborator. -/
def gen_const : List MCPResponse → String := fun _ => "aggregate"

instance : IsTotal (String × ℚ) score_ge := ⟨fun a b => le_total b.2 a.2⟩

instance : IsTrans (String × ℚ) score_ge := ⟨fun _ _ _ hab hbc => le_trans hbc hab⟩

/-- Folding an accumulating addition equals adding the mapped sum. -/
theorem foldl_add_map_sum {α : Type} (f : α → ℚ) (l : List α) (a : ℚ) :
    l.foldl (fun s x => s + f x) a = a + (l.map f).sum := by
  induction l generalizing a with
  | nil => simp
  | cons x xs ih => simp [List.foldl_cons, ih, add_assoc]

/-- The capability-weight fold of the score computation in closed form. -/
theorem foldl_lookup_sum (content_scores : List (ServerCapability × ℚ))
    (caps : List ServerCapability) (a : ℚ) :
    caps.foldl
      (fun s capability =>
        match content_scores.lookup capability with
        | some v => s + v * (6 / 10 : ℚ)
        | none => s) a
      = a + ((caps.filterMap fun c => content_scores.lookup c).sum) * (6 / 10) := by
  induction caps generalizing a with
  | nil => simp
  | cons c cs ih => cases h : content_scores.lookup c <;> simp [h, ih, add_mul, add_assoc]

/-- The if/elif affinity-bonus chain of the source equals one additive
bonus guarded by the disjunction of its conditions. -/
theorem affinity_bonus_eq (t : TriggerType) (caps : List ServerCapability) (x : ℚ) :
    (if t = .issue ∧ ServerCapability.code_analysis ∈ caps then x + 1 / 5
     else if t = .pull_request ∧ ServerCapability.code_analysis ∈ caps then x + 1 / 5
     else if t = .push ∧ ServerCapability.deployment ∈ caps then x + 1 / 5
     else x) =
    x + (if ((t = .issue ∨ t = .pull_request) ∧ ServerCapability.code_analysis ∈ caps) ∨
          (t = .push ∧ ServerCapability.deployment ∈ caps) then (1 : ℚ) / 5 else 0) := by
  by_cases hca : ServerCapability.code_analysis ∈ caps <;>
    by_cases hdep : ServerCapability.deployment ∈ caps <;>
      cases t <;> simp [hca, hdep]

/-- Closed form of the per-server score computation. -/
theorem calculate_server_score_closed (server : MCPServerConfig) (rules : List RoutingRule)
    (content_scores : List (ServerCapability × ℚ)) (context : TriggerContext) :
    calculate_server_score server rules content_scores context =
      (server.priority : ℚ) * (1 / 10) +
      ((rules.map fun r => (r.priority : ℚ)).sum) * (3 / 10) +
      ((server.capabilities.filterMap fun c => content_scores.lookup c).sum) * (6 / 10) +
      (if ((context.trigger_type = .issue ∨ context.trigger_type = .pull_request) ∧
            ServerCapability.code_analysis ∈ server.capabilities) ∨
          (context.trigger_type = .push ∧ ServerCapability.deployment ∈ server.capabilities)
        then (1 : ℚ) / 5 else 0) := by
  unfold calculate_server_score
  rw [affinity_bonus_eq, foldl_lookup_sum,
    show (fun (s : ℚ) (rule : RoutingRule) => s + (rule.priority : ℚ) * (3 / 10)) =
      fun (s : ℚ) rule => s + (fun rule : RoutingRule => (rule.priority : ℚ) * (3 / 10)) rule
      from rfl,
    foldl_add_map_sum, List.sum_map_mul_right]
  ring

/-- The repository clause of the condition checker, as a proposition. -/
theorem repo_clause_iff (c : RuleConditions) (context : TriggerContext) :
    (match c.repository with
      | some repo_pattern =>
          match context.repository with
          | some repo => (repo != "") && py_match repo_pattern repo.toList
          | none => false
      | none => true) = true ↔ repo_cond_ok c context := by
  cases hc : c.repository with
  | none => simp [repo_cond_ok, hc]
  | some pat =>
    cases hr : context.repository with
    | none => simp [repo_cond_ok, hc, hr]
    | some repo => simp [repo_cond_ok, hc, hr, Bool.and_eq_true, bne_iff_ne]

/-- The keyword clause of the condition checker, as a proposition. -/
theorem keyword_clause_iff (c : RuleConditions) (context : TriggerContext) :
    (match c.keywords, context.content with
      | some keywords, some content =>
          (content == "") ||
            keywords.any (fun keyword => contains_sub content.toLower keyword.toLower)
      | _, _ => true) = true ↔ keyword_cond_ok c context := by
  cases hk : c.keywords with
  | none => simp [keyword_cond_ok, hk]
  | some kws =>
    cases hc : context.content with
    | none => simp [keyword_cond_ok, hk, hc]
    | some content =>
      simp only [keyword_cond_ok, hk, hc, Bool.or_eq_true, List.any_eq_true, beq_iff_eq]
      constructor
      · intro h kws2 content2 hk2 hc2 hne
        rw [Option.some.injEq] at hk2 hc2
        subst hk2
        subst hc2
        rcases h with h | h
        · exact absurd h hne
        · exact h
      · intro h
        by_cases hne : content = ""
        · exact Or.inl hne
        · exact Or.inr (h kws content rfl rfl hne)

/-- The user clause of the condition checker, as a proposition. -/
theorem user_clause_iff (c : RuleConditions) (context : TriggerContext) :
    (match c.user with
      | some user_pattern =>
          match context.user_id with
          | some user => (user != "") && py_match user_pattern user.toList
          | none => false
      | none => true) = true ↔ user_cond_ok c context := by
  cases hc : c.user with
  | none => simp [user_cond_ok, hc]
  | some pat =>
    cases hr : context.user_id with
    | none => simp [user_cond_ok, hc, hr]
    | some user => simp [user_cond_ok, hc, hr, Bool.and_eq_true, bne_iff_ne]

/-- The branch clause of the condition checker, as a proposition. -/
theorem branch_clause_iff (c : RuleConditions) (context : TriggerContext) :
    (match c.branch with
      | some branch_pattern =>
          match context.branch with
          | some branch => (branch != "") && py_match branch_pattern branch.toList
          | none => false
      | none => true) = true ↔ branch_cond_ok c context := by
  cases hc : c.branch with
  | none => simp [branch_cond_ok, hc]
  | some pat =>
    cases hr : context.branch with
    | none => simp [branch_cond_ok, hc, hr]
    | some branch => simp [branch_cond_ok, hc, hr, Bool.and_eq_true, bne_iff_ne]

/-- Acceptance of a cons by the whole-string matcher steps through the
derivative. -/
theorem rmatch_cons (r : Regex) (c : Char) (p : List Char) :
    rmatch r (c :: p) = rmatch (rderiv r c) p := rfl

/-- The anchored matcher succeeds exactly when the pattern fully
matches some leading segment of the string. -/
theorem py_match_iff (r : Regex) (s : List Char) :
    py_match r s = true ↔ ∃ p t, p ++ t = s ∧ rmatch r p = true := by
  induction s generalizing r with
  | nil =>
    simp only [py_match, rmatch, List.foldl_nil]
    constructor
    · intro h
      exact ⟨[], [], rfl, h⟩
    · rintro ⟨p, t, hpt, hm⟩
      have hp : p = [] := by
        cases p with
        | nil => rfl
        | cons d ds => simp at hpt
      subst hp
      exact hm
  | cons c cs ih =>
    simp only [py_match, Bool.or_eq_true, ih]
    constructor
    · rintro (h | ⟨p, t, hpt, hm⟩)
      · exact ⟨[], c :: cs, rfl, h⟩
      · exact ⟨c :: p, t, by rw [List.cons_append, hpt], by rw [rmatch_cons]; exact hm⟩
    · rintro ⟨p, t, hpt, hm⟩
      cases p with
      | nil => exact Or.inl hm
      | cons d ds =>
        rw [List.cons_append] at hpt
        have hd : d = c := (List.cons.injEq d (ds ++ t) c cs).mp hpt |>.1
        have hds : ds ++ t = cs := (List.cons.injEq d (ds ++ t) c cs).mp hpt |>.2
        subst hd
        exact Or.inr ⟨ds, t, hds, by rw [rmatch_cons] at hm; exact hm⟩

/-- Shifting the backoff exponents by one step matches the extended
range. -/
theorem range_pow_shift (attempt r : Nat) :
    2 ^ attempt :: (List.range r).map (fun i => 2 ^ (attempt + 1 + i)) =
      (List.range (r + 1)).map fun i => 2 ^ (attempt + i) := by
  rw [List.range_succ_eq_map, List.map_cons, List.map_map]
  simp only [Nat.add_zero]
  have hfun : ((fun i => 2 ^ (attempt + i)) ∘ Nat.succ) =
      fun i : Nat => 2 ^ (attempt + 1 + i) := by
    funext i
    simp only [Function.comp_apply]
    congr 1
    omega
  rw [hfun]

/-- The retry loop under an environment that fails on every attempt it
can reach: the final error is the one raised at the last attempt and
the backoff waits are exactly the powers of two of the attempt
indices. -/
theorem execute_attempts_all_fail (env : Nat → AttemptOutcome) :
    ∀ remaining attempt : Nat,
      (∀ i, attempt ≤ i → i ≤ attempt + remaining → attempt_fails (env i) = true) →
      execute_attempts env attempt remaining =
        (.error (fail_msg (env (attempt + remaining))),
         (List.range remaining).map fun i => 2 ^ (attempt + i)) := by
  intro remaining
  induction remaining with
  | zero =>
    intro attempt h
    have hf := h attempt le_rfl (by omega)
    cases he : env attempt with
    | ok d => rw [he] at hf; simp [attempt_fails] at hf
    | http s b => simp [execute_attempts, he, fail_msg]
    | net m => simp [execute_attempts, he, fail_msg]
  | succ r ih =>
    intro attempt h
    have hf := h attempt le_rfl (by omega)
    have hrec := ih (attempt + 1) (fun i h1 h2 => h i (by omega) (by omega))
    have hidx : attempt + 1 + r = attempt + (r + 1) := by omega
    cases he : env attempt with
    | ok d => rw [he] at hf; simp [attempt_fails] at hf
    | http s b =>
      simp only [execute_attempts, he]
      rw [hrec, hidx, range_pow_shift]
    | net m =>
      simp only [execute_attempts, he]
      rw [hrec, hidx, range_pow_shift]

/-- On the compute path with at least one available server, the router
stores the freshly built result under the given key and stamps it with
the current time. -/
theorem route_compute_caches (config : SystemConfig)
    (cache : List (String × RoutingResult)) (now : Nat) (context : TriggerContext)
    (key : String) (havail : (get_available_servers config).isEmpty = false) :
    (route_compute config cache now context key).2 =
      (key, (route_compute config cache now context key).1) :: cache ∧
    (route_compute config cache now context key).1.timestamp = now := by
  constructor <;> simp [route_compute, havail]

/-- Claim C1: for every score table the selection returned by the
router contains at most 3 names, lists the underlying entries in
non-increasing score order, every selected name carries a composite
score strictly above 1/10, and (given the dict invariant of unique
server names) no server whose score is at most 1/10 is ever selected. -/
theorem select_top_servers_spec (server_scores : List (String × ℚ))
    (hkeys : (server_scores.map Prod.fst).Nodup) :
    ∃ ps : List (String × ℚ),
      select_top_servers server_scores = ps.map Prod.fst ∧
      ps.length ≤ 3 ∧
      List.Chain' (fun a b : String × ℚ => b.2 ≤ a.2) ps ∧
      (∀ p ∈ ps, p ∈ server_scores ∧ (1 : ℚ) / 10 < p.2) ∧
      (∀ p ∈ server_scores, p.2 ≤ 1 / 10 → p.1 ∉ select_top_servers server_scores) := by
  by_cases hemp : server_scores.isEmpty = true
  · rw [List.isEmpty_iff] at hemp
    subst hemp
    exact ⟨[], by simp [select_top_servers], by simp, by simp, by simp, by simp⟩
  · refine ⟨((List.insertionSort score_ge server_scores).filter
        fun p => decide ((1 : ℚ) / 10 < p.2)).take 3, ?_, ?_, ?_, ?_, ?_⟩
    case _ =>
      simp only [select_top_servers, hemp, if_false]
      rw [List.map_take]
      simp
    case _ => exact List.length_take_le 3 _
    case _ =>
      have hsort : List.Pairwise score_ge (List.insertionSort score_ge server_scores) :=
        List.sorted_insertionSort score_ge server_scores
      exact (List.Pairwise.sublist (List.take_sublist 3 _) (hsort.filter _)).chain'
    case _ =>
      intro p hp
      have h1 : p ∈ (List.insertionSort score_ge server_scores).filter
          fun p => decide ((1 : ℚ) / 10 < p.2) :=
        List.Sublist.mem hp (List.take_sublist 3 _)
      rw [List.mem_filter] at h1
      exact ⟨(List.perm_insertionSort score_ge server_scores).mem_iff.mp h1.1,
        of_decide_eq_true h1.2⟩
    case _ =>
      intro p hp hle hmem
      have hsel : select_top_servers server_scores =
          (((List.insertionSort score_ge server_scores).filter
            fun p => decide ((1 : ℚ) / 10 < p.2)).take 3).map Prod.fst := by
        simp only [select_top_servers, hemp, if_false]
        rw [List.map_take]
        simp
      rw [hsel] at hmem
      obtain ⟨q, hq, hqfst⟩ := List.mem_map.mp hmem
      have h1 : q ∈ (List.insertionSort score_ge server_scores).filter
          fun p => decide ((1 : ℚ) / 10 < p.2) :=
        List.Sublist.mem hq (List.take_sublist 3 _)
      rw [List.mem_filter] at h1
      have hqs : q ∈ server_scores :=
        (List.perm_insertionSort score_ge server_scores).mem_iff.mp h1.1
      have hqe : q = p := List.inj_on_of_nodup_map hkeys hqs hp hqfst
      rw [hqe] at h1
      exact absurd (of_decide_eq_true h1.2) (not_lt.mpr hle)

/-- Witness for claim C1 at a concrete two-entry score table. -/
theorem select_top_servers_spec_witness :
    ∃ ps : List (String × ℚ),
      select_top_servers [("alpha", 2), ("beta", (1 : ℚ) / 25)] = ps.map Prod.fst ∧
      ps.length ≤ 3 ∧
      List.Chain' (fun a b : String × ℚ => b.2 ≤ a.2) ps ∧
      (∀ p ∈ ps, p ∈ [("alpha", 2), ("beta", (1 : ℚ) / 25)] ∧ (1 : ℚ) / 10 < p.2) ∧
      (∀ p ∈ [("alpha", 2), ("beta", (1 : ℚ) / 25)], p.2 ≤ 1 / 10 →
        p.1 ∉ select_top_servers [("alpha", 2), ("beta", (1 : ℚ) / 25)]) :=
  select_top_servers_spec [("alpha", 2), ("beta", (1 : ℚ) / 25)] (by decide)

/-- Claim C2: every available server is scored with exactly
priority/10 plus 3/10 of the summed priorities of its matching rules
plus 6/10 of the summed content scores of its capabilities present in
the content-score map plus the 1/5 affinity bonus granted precisely for
issue or pull-request triggers with the code-analysis capability or
push triggers with the deployment capability. -/
theorem server_score_formula (servers : List MCPServerConfig)
    (rule_matches_map : List (String × List RoutingRule))
    (content_scores : List (ServerCapability × ℚ)) (context : TriggerContext)
    (server : MCPServerConfig) (hmem : server ∈ servers) :
    (server.name,
      (server.priority : ℚ) * (1 / 10) +
      ((((rule_matches_map.lookup server.name).getD []).map fun r => (r.priority : ℚ)).sum)
        * (3 / 10) +
      ((server.capabilities.filterMap fun c => content_scores.lookup c).sum) * (6 / 10) +
      (if ((context.trigger_type = .issue ∨ context.trigger_type = .pull_request) ∧
            ServerCapability.code_analysis ∈ server.capabilities) ∨
          (context.trigger_type = .push ∧ ServerCapability.deployment ∈ server.capabilities)
        then (1 : ℚ) / 5 else 0)) ∈
      calculate_server_scores servers rule_matches_map content_scores context := by
  rw [← calculate_server_score_closed]
  exact List.mem_map.mpr ⟨server, hmem, rfl⟩

/-- Witness for claim C2 at a concrete server and empty rule and
content maps. -/
theorem server_score_formula_witness :
    (srv_alpha.name,
      (srv_alpha.priority : ℚ) * (1 / 10) +
      (((([] : List (String × List RoutingRule)).lookup srv_alpha.name).getD []).map
          fun r => (r.priority : ℚ)).sum * (3 / 10) +
      ((srv_alpha.capabilities.filterMap
          fun c => ([] : List (ServerCapability × ℚ)).lookup c).sum) * (6 / 10) +
      (if ((ctx0.trigger_type = .issue ∨ ctx0.trigger_type = .pull_request) ∧
            ServerCapability.code_analysis ∈ srv_alpha.capabilities) ∨
          (ctx0.trigger_type = .push ∧ ServerCapability.deployment ∈ srv_alpha.capabilities)
        then (1 : ℚ) / 5 else 0)) ∈
      calculate_server_scores [srv_alpha] [] [] ctx0 :=
  server_score_formula [srv_alpha] [] [] ctx0 srv_alpha (List.mem_singleton.mpr rfl)

/-- Claim C3: the code is wrong.  The freshness test uses the Python
timedelta seconds attribute, which is the age modulo one day, so a
cached result that is one day and ten seconds old (86410 seconds, far
beyond the documented 300-second lifetime) is still returned unchanged
instead of being recomputed; here the stale cached selection is
returned although recomputation under this configuration would select
nothing. -/
theorem stale_cache_returned_after_day_wrap :
    (route_trigger cfg_disabled [(generate_cache_key ctx0, stale_result)] 86410 ctx0).1 =
      stale_result ∧
    300 ≤ 86410 - stale_result.timestamp := by
  exact ⟨rfl, by decide⟩

/-- Counterexample for claim C4: an HTTP 404 response, a 4xx-class
failure the claim says is never retried, is retried: with retry count 2
the request performs two backoff waits of 1 and 2 time units before
surfacing the 404 error. -/
theorem http_4xx_is_retried :
    execute_request 2 (fun _ => .http 404 "Not Found") =
      (.error "HTTP 404: Not Found", [1, 2]) := by
  rfl

/-- Claim C4 as amended: every dispatch failure, transport level or any
non-200 response with no 4xx/5xx distinction, is retried exactly
retry_count times with strictly increasing backoff waits of 2 to the
attempt index, after which the last error is surfaced. -/
theorem retry_exhaustion_backoff (retry_count : Nat) (env : Nat → AttemptOutcome)
    (h : ∀ i, i ≤ retry_count → attempt_fails (env i) = true) :
    execute_request retry_count env =
      (.error (fail_msg (env retry_count)), (List.range retry_count).map fun i => 2 ^ i) ∧
    List.Chain' (fun a b => a < b) (execute_request retry_count env).2 := by
  have hmain := execute_attempts_all_fail env retry_count 0
    (fun i h1 h2 => h i (by omega))
  simp only [Nat.zero_add] at hmain
  refine ⟨hmain, ?_⟩
  rw [show execute_request retry_count env = execute_attempts env 0 retry_count from rfl,
    hmain]
  exact ((List.pairwise_lt_range retry_count).map _
    (fun a b hab => Nat.pow_lt_pow_right (by omega) hab)).chain'

/-- Witness for the amended claim C4 on a persistently failing
transport. -/
theorem retry_exhaustion_backoff_witness :
    execute_request 2 (fun _ => .net "connection reset") =
      (.error (fail_msg ((fun _ => AttemptOutcome.net "connection reset") 2)),
       (List.range 2).map fun i => 2 ^ i) ∧
    List.Chain' (fun a b => a < b)
      (execute_request 2 (fun _ => .net "connection reset")).2 :=
  retry_exhaustion_backoff 2 (fun _ => .net "connection reset") (fun _ _ => rfl)

/-- Counterexample for claim C5: the alpha task completes inside the
deadline with a successful real outcome, yet because the beta task
overruns the global deadline the returned list replaces both outcomes,
including the completed one, by synthetic timeout responses. -/
theorem completed_outcome_discarded :
    env_two.duration "alpha" ≤ cfg_two.request_timeout ∧
    (env_two.outcome "alpha").success = true ∧
    execute_on_servers cfg_two env_two ["alpha", "beta"] =
      [timeout_response 60 "alpha", timeout_response 60 "beta"] := by
  decide

/-- Claim C5 as amended: when the global deadline elapses before all
started tasks complete, the dispatcher returns one synthetic outcome
per selected server, success false, error Request timeout (capital R in
the source) and elapsed time equal to the global timeout; results of
tasks that had already completed are discarded rather than kept. -/
theorem global_timeout_synthesizes_all (config : SystemConfig) (env : DispatchEnv)
    (server_names : List String)
    (h : ∃ n ∈ server_names.filter
          (fun n => config.servers.any fun server => server.name == n),
        config.request_timeout < env.duration n) :
    execute_on_servers config env server_names =
      server_names.map (timeout_response config.request_timeout) := by
  have hcond : ¬((server_names.filter
      (fun n => config.servers.any fun server => server.name == n)).all
        (fun n => decide (env.duration n ≤ config.request_timeout)) = true) := by
    intro hall
    rw [List.all_eq_true] at hall
    obtain ⟨n, hn, hd⟩ := h
    exact not_le.mpr hd (of_decide_eq_true (hall n hn))
  simp only [execute_on_servers]
  rw [if_neg hcond]

/-- Witness for the amended claim C5 at the concrete two-server
dispatch. -/
theorem global_timeout_synthesizes_all_witness :
    execute_on_servers cfg_two env_two ["alpha", "beta"] =
      ["alpha", "beta"].map (timeout_response cfg_two.request_timeout) :=
  global_timeout_synthesizes_all cfg_two env_two ["alpha", "beta"]
    ⟨"beta", by decide, by decide⟩

/-- Counterexample for claim C6: a rule carrying a keyword condition
matches a trigger whose content is absent, although no keyword can
occur in absent content; the source skips the keyword check whenever
content is missing or empty. -/
theorem keyword_rule_matches_absent_content :
    rule_matches "srv" rule_kw ctx0 = true ∧
    rule_kw.conditions.keywords = some ["bug"] ∧ ctx0.content = none := by
  exact ⟨rfl, rfl, rfl⟩

/-- Claim C6 as amended: an enabled, targeted, kind-applicable rule
matches exactly when all present conditions hold, where the keyword
condition requires a case-insensitive keyword substring only when the
content is present and non-empty and is vacuously satisfied
otherwise. -/
theorem rule_matching_conjunctive (server_name : String) (rule : RoutingRule)
    (context : TriggerContext) :
    rule_matches server_name rule context = true ↔
      (rule.enabled = true ∧ server_name ∈ rule.target_servers ∧
       context.trigger_type ∈ rule.trigger_types ∧
       repo_cond_ok rule.conditions context ∧ keyword_cond_ok rule.conditions context ∧
       user_cond_ok rule.conditions context ∧ branch_cond_ok rule.conditions context) := by
  unfold rule_matches check_rule_conditions
  simp only [Bool.and_eq_true, decide_eq_true_iff]
  rw [repo_clause_iff, keyword_clause_iff, user_clause_iff, branch_clause_iff]
  tauto

/-- Witness for the amended claim C6 at a concrete rule and context. -/
theorem rule_matching_conjunctive_witness :
    rule_matches "srv" rule_kw ctx0_branched = true ↔
      (rule_kw.enabled = true ∧ "srv" ∈ rule_kw.target_servers ∧
       ctx0_branched.trigger_type ∈ rule_kw.trigger_types ∧
       repo_cond_ok rule_kw.conditions ctx0_branched ∧
       keyword_cond_ok rule_kw.conditions ctx0_branched ∧
       user_cond_ok rule_kw.conditions ctx0_branched ∧
       branch_cond_ok rule_kw.conditions ctx0_branched) :=
  rule_matching_conjunctive "srv" rule_kw ctx0_branched

/-- Counterexample for claim C7: the repository condition accepts a
pattern that matches only a proper leading segment of the repository
string; the literal pattern abc satisfies the condition against the
repository abcdef although it does not match the whole string. -/
theorem repository_condition_ignores_tail :
    check_rule_conditions (repo_rule pat_abc) ctx_repo = true ∧
    rmatch pat_abc "abcdef".toList = false ∧
    rmatch pat_abc "abc".toList = true := by
  decide

/-- Claim C7 as amended: a rule whose only condition is a repository
pattern is satisfied exactly when the repository field is present and
non-empty and the pattern fully matches some leading segment of the
repository string, the semantics of Python re.match, which anchors at
the start only and permits trailing characters. -/
theorem repository_condition_semantics (pat : Regex) (context : TriggerContext) :
    check_rule_conditions (repo_rule pat) context = true ↔
      ∃ repo, context.repository = some repo ∧ repo ≠ "" ∧
        ∃ p t, p ++ t = repo.toList ∧ rmatch pat p = true := by
  unfold check_rule_conditions repo_rule
  cases hr : context.repository with
  | none => simp [hr]
  | some repo =>
    simp [hr, Bool.and_eq_true, bne_iff_ne, py_match_iff]

/-- Witness for the amended claim C7 at the concrete pattern and
context. -/
theorem repository_condition_semantics_witness :
    check_rule_conditions (repo_rule pat_abc) ctx_repo = true ↔
      ∃ repo, ctx_repo.repository = some repo ∧ repo ≠ "" ∧
        ∃ p t, p ++ t = repo.toList ∧ rmatch pat_abc p = true :=
  repository_condition_semantics pat_abc ctx_repo

/-- Claim C8: the orchestration result reports overall success exactly
when some per-server response succeeded, and with no successful
response the aggregated final response is absent. -/
theorem overall_success_iff (config : SystemConfig) (cache : List (String × RoutingResult))
    (now : Nat) (env : DispatchEnv) (generator : List MCPResponse → String)
    (context : TriggerContext) :
    ((process_trigger config cache now env generator context).success = true ↔
      ∃ r ∈ (process_trigger config cache now env generator context).server_responses,
        r.success = true) ∧
    ((∀ r ∈ (process_trigger config cache now env generator context).server_responses,
        r.success = false) →
      (process_trigger config cache now env generator context).final_response = none) := by
  simp only [process_trigger]
  split
  next h =>
    constructor
    · simp
    · intro _
      rfl
  next h =>
    constructor
    · simp [List.any_eq_true]
    · intro hall
      simp only [generate_contextual_response]
      rw [if_pos]
      rw [List.isEmpty_iff, List.filter_eq_nil_iff]
      intro r hr
      simp [hall r hr]

/-- Witness for claim C8 at a concrete configuration with no enabled
server, where no response exists and the final response is absent. -/
theorem overall_success_iff_witness :
    ((process_trigger cfg_disabled [] 0 env_two gen_const ctx0).success = true ↔
      ∃ r ∈ (process_trigger cfg_disabled [] 0 env_two gen_const ctx0).server_responses,
        r.success = true) ∧
    ((∀ r ∈ (process_trigger cfg_disabled [] 0 env_two gen_const ctx0).server_responses,
        r.success = false) →
      (process_trigger cfg_disabled [] 0 env_two gen_const ctx0).final_response = none) :=
  overall_success_iff cfg_disabled [] 0 env_two gen_const ctx0

/-- Claim C9: on a cache miss, when no configured server is enabled
(the stubbed health probe reports every server healthy, so enablement
is the whole availability test) the router returns a normal
RoutingResult with empty selection, the fallback flag set and the
diagnostic rationale, and leaves the cache untouched. -/
theorem route_no_servers_fallback (config : SystemConfig)
    (cache : List (String × RoutingResult)) (now : Nat) (context : TriggerContext)
    (hmiss : cache.lookup (generate_cache_key context) = none)
    (hnone : ∀ server ∈ config.servers, server.enabled = false) :
    route_trigger config cache now context =
      ({ selected_servers := []
         confidence_scores := []
         routing_reason := "No available servers"
         fallback_used := true
         timestamp := now }, cache) := by
  have havail : get_available_servers config = [] := by
    unfold get_available_servers
    rw [List.filter_eq_nil_iff]
    intro s hs
    simp [hnone s hs]
  unfold route_trigger
  dsimp only
  rw [hmiss]
  show route_compute config cache now context (generate_cache_key context) = _
  unfold route_compute
  rw [havail]
  rfl

/-- Witness for claim C9 at the concrete disabled-server
configuration. -/
theorem route_no_servers_fallback_witness :
    route_trigger cfg_disabled [] 7 ctx0 =
      ({ selected_servers := []
         confidence_scores := []
         routing_reason := "No available servers"
         fallback_used := true
         timestamp := 7 }, []) :=
  route_no_servers_fallback cfg_disabled [] 7 ctx0 rfl (by decide)

/-- Claim C10: the routing cache key reads only trigger kind, source,
content and repository, so a second route call whose context agrees on
those four fields but differs in branch, user id or metadata, made
while the first computed result is fresh, returns the first result
unchanged. -/
theorem cache_key_ignores_branch_user_metadata (config : SystemConfig)
    (ctx1 ctx2 : TriggerContext) (t1 t2 : Nat)
    (htype : ctx1.trigger_type = ctx2.trigger_type)
    (hsource : ctx1.source = ctx2.source)
    (hcontent : ctx1.content = ctx2.content)
    (hrepo : ctx1.repository = ctx2.repository)
    (havail : (get_available_servers config).isEmpty = false)
    (hfresh : t2 - t1 < 300) :
    (route_trigger config (route_trigger config [] t1 ctx1).2 t2 ctx2).1 =
      (route_trigger config [] t1 ctx1).1 := by
  have hkey : generate_cache_key ctx2 = generate_cache_key ctx1 := by
    unfold generate_cache_key
    rw [htype, hsource, hcontent, hrepo]
  have hcall1 : route_trigger config [] t1 ctx1 =
      route_compute config [] t1 ctx1 (generate_cache_key ctx1) := rfl
  have hcc := route_compute_caches config [] t1 ctx1 (generate_cache_key ctx1) havail
  rw [hcall1, hcc.1]
  have hfr : fresh_in_cache t2
      (route_compute config [] t1 ctx1 (generate_cache_key ctx1)).1.timestamp = true := by
    rw [hcc.2]
    unfold fresh_in_cache
    rw [Nat.mod_eq_of_lt (by omega)]
    exact decide_eq_true (by omega)
  simp only [route_trigger, hkey, List.lookup_cons, beq_self_eq_true, hfr, if_true]

/-- Witness for claim C10: the branched context reuses the cached
result of the baseline context. -/
theorem cache_key_ignores_branch_user_metadata_witness :
    (route_trigger cfg_one (route_trigger cfg_one [] 0 ctx0).2 100 ctx0_branched).1 =
      (route_trigger cfg_one [] 0 ctx0).1 :=
  cache_key_ignores_branch_user_metadata cfg_one ctx0 ctx0_branched 0 100
    rfl rfl rfl rfl (by decide) (by decide)
